import Mathlib

/-!
TaskForm: a verification development.

Shallow embedding of `frontend/src/components/TaskForm.jsx`.

The component keeps six pieces of React state (`name`, `taskName`, `repoLink`,
`taskUpdates`, `message`, `error`).  Event handlers read the state of the render they
were created in and write through the setters; the asynchronous `handleSubmit` is split
at its single `await` into the part that runs when the form is submitted and the part
that runs when the POST settles.

JavaScript arrays are lists, JavaScript strings are `String`, an `undefined` value of a
property is `none`.  Entry objects are embedded by value: in the component every entry
object is created by its own object literal (initial state, `addUpdateField`, the reset
after a successful submit), so no two positions of `taskUpdates` ever share an object and
the in-place write of `handleUpdateChange` is visible at one position only.
-/

namespace TaskForm

/-! ## Data model -/

/-- One element of `taskUpdates`: `{ text, link }`.  `link = none` is an entry whose
`link` property is `undefined`. -/
structure UpdateEntry where
  text : String
  link : Option String
deriving DecidableEq, Repr

/-- The object literal `{ text: '', link: '' }`. -/
def emptyEntry : UpdateEntry := ⟨"", some ""⟩

/-- The two property names the rendered inputs pass to `handleUpdateChange`. -/
inductive Field where
  | text
  | link
deriving DecidableEq, Repr

/-- The six `useState` cells of the component. -/
structure FormState where
  name : String
  taskName : String
  repoLink : String
  taskUpdates : List UpdateEntry
  message : String
  error : String
deriving DecidableEq, Repr

/-- The arguments of the six `useState` calls. -/
def initialState : FormState :=
  { name := "", taskName := "", repoLink := "", taskUpdates := [emptyEntry],
    message := "", error := "" }

/-- Errors a handler can throw.  The text of a `TypeError` depends on the engine and is
left out. -/
inductive JSError where
  | typeError
deriving DecidableEq, Repr

/-! ## JavaScript primitives used by the component -/

/-- Truthiness of a string: `!s` is true exactly for the empty string. -/
def strFalsy (s : String) : Bool := decide (s = "")

/-- The expression `a || b` where `a` is a string or `undefined` and `b` a string:
`a` when it is truthy (a non-empty string), else `b`. -/
def jsOr (a : Option String) (b : String) : String :=
  match a with
  | some s => if strFalsy s then b else s
  | none => b

/-- String concatenation `'...' + v` of a value that is a string or `undefined`. -/
def jsToString (v : Option String) : String :=
  match v with
  | some s => s
  | none => "undefined"

/-- `Array.prototype.filter((x, i) => p x i)`, the running position starting at `k`. -/
def filterWithIndex {α : Type} (p : α → Nat → Bool) : List α → Nat → List α
  | [], _ => []
  | x :: xs, k =>
    if p x k then x :: filterWithIndex p xs (k + 1) else filterWithIndex p xs (k + 1)

/-- Read `arr[index]` for an integer index: `undefined` outside `0 .. length - 1`. -/
def arrayGet {α : Type} (arr : List α) (index : Int) : Option α :=
  if 0 ≤ index then arr[index.toNat]? else none

/-! ## Entry handlers -/

/-- The assignment `entry[field] = value`. -/
def setField (u : UpdateEntry) (field : Field) (value : String) : UpdateEntry :=
  match field with
  | Field.text => { u with text := value }
  | Field.link => { u with link := some value }

/-- Handler `handleUpdateChange`: copies the array, writes `newUpdates[index][field] = value`
and returns the array handed to `setTaskUpdates`.  When `newUpdates[index]` is `undefined`
the property write throws a `TypeError` and `setTaskUpdates` is not reached. -/
def handleUpdateChange (taskUpdates : List UpdateEntry) (index : Int) (field : Field)
    (value : String) : Except JSError (List UpdateEntry) :=
  let newUpdates := taskUpdates
  match arrayGet newUpdates index with
  | none => Except.error JSError.typeError
  | some u => Except.ok (newUpdates.set index.toNat (setField u field value))

/-- Handler `addUpdateField`: `[...taskUpdates, { text: '', link: '' }]`. -/
def addUpdateField (taskUpdates : List UpdateEntry) : List UpdateEntry :=
  taskUpdates ++ [emptyEntry]

/-- Handler `removeUpdateField`: `taskUpdates.filter((_, i) => i !== index)`. -/
def removeUpdateField (taskUpdates : List UpdateEntry) (index : Int) : List UpdateEntry :=
  filterWithIndex (fun _ i => decide ((i : Int) ≠ index)) taskUpdates 0

/-- The effect of the `onChange` of an entry input on the component state: the new array
is stored when `handleUpdateChange` returns, and nothing is stored when it throws. -/
def applyUpdateChange (s : FormState) (index : Int) (field : Field) (value : String) :
    FormState × Option JSError :=
  match handleUpdateChange s.taskUpdates index field value with
  | Except.ok newUpdates => ({ s with taskUpdates := newUpdates }, none)
  | Except.error e => (s, some e)

/-! ## Submission -/

/-- The constant `API_ENDPOINT`. -/
def API_ENDPOINT : String := "https://poridhi-tesk.vercel.app/add_task"

/-- One element of `payload.task_updates`: `{ text, link }`, both strings. -/
structure PayloadUpdate where
  text : String
  link : String
deriving DecidableEq, Repr

/-- The object `payload` built by `handleSubmit`. -/
structure Payload where
  name : String
  task_name : String
  task_updates : List PayloadUpdate
  repo_link : String
deriving DecidableEq, Repr

/-- One call `axios.post(url, body)`. -/
structure PostRequest where
  url : String
  body : Payload
deriving DecidableEq, Repr

/-- How the awaited `axios.post` settles.  `resolved taskId` is a response whose
`data.task_id` is `taskId` (`none` when the property is `undefined`); `rejected
responseError errMessage` is a thrown `err` with `err.response?.data?.error =
responseError` (`none` when the chain yields `undefined`) and `err.message = errMessage`. -/
inductive PostResult where
  | resolved (taskId : Option String)
  | rejected (responseError : Option String) (errMessage : String)
deriving DecidableEq, Repr

/-- The argument of `setError` in the validation branch. -/
def validationMessage : String :=
  "Please fill in all required fields (Name, Task Name, Repo Link, and at least one update text)."

/-- The literal prefix of the success message. -/
def successPrefix : String := "Task submitted successfully! Task ID: "

/-- The literal prefix of the failure message. -/
def failurePrefix : String := "Failed to submit task. "

/-- The condition of the `if` in `handleSubmit`:
`!name || !taskName || !repoLink || taskUpdates.some((upd) => !upd.text)`. -/
def validationFails (s : FormState) : Bool :=
  strFalsy s.name || strFalsy s.taskName || strFalsy s.repoLink ||
    s.taskUpdates.any (fun upd => strFalsy upd.text)

/-- The object literal assigned to `payload`. -/
def buildPayload (s : FormState) : Payload :=
  { name := s.name
    task_name := s.taskName
    task_updates := s.taskUpdates.map (fun upd => { text := upd.text, link := jsOr upd.link "" })
    repo_link := s.repoLink }

/-- The part of `handleSubmit` before the `await`: clear both messages, validate, and
either set the validation error and return, or build the payload and call `axios.post`.
The second component is the request sent, if any. -/
def submitStart (s : FormState) : FormState × Option PostRequest :=
  let s1 := { s with message := "", error := "" }
  if validationFails s then
    ({ s1 with error := validationMessage }, none)
  else
    (s1, some { url := API_ENDPOINT, body := buildPayload s })

/-- The part of `handleSubmit` after the `await`, run on the state current when the POST
settles: the `try` continuation on a resolved promise, the `catch` block on a rejected one. -/
def submitResponse (s : FormState) (r : PostResult) : FormState :=
  match r with
  | PostResult.resolved taskId =>
    { s with
      message := successPrefix ++ jsToString taskId
      name := ""
      taskName := ""
      repoLink := ""
      taskUpdates := [emptyEntry] }
  | PostResult.rejected responseError errMessage =>
    { s with error := failurePrefix ++ jsOr responseError errMessage }

/-- One run of `handleSubmit` in the special case that the component handles no other
event while the POST is awaited.  `net` tells how the request settles.  Returns the final
state and the requests issued.  It is used for what `handleSubmit` does up to the `await`
(validation, the request); the general run, with events during the wait, is
`handleSubmitInterleaved`.  The call `e.preventDefault()` and the `console.error(err)`
of the `catch` block touch no state of the component and are left out. -/
def handleSubmit (s : FormState) (net : PostRequest → PostResult) :
    FormState × List PostRequest :=
  match submitStart s with
  | (s1, none) => (s1, [])
  | (s1, some req) => (submitResponse s1 (net req), [req])

/-! ## The component as a transition system -/

/-- The component between two events: its state and the POST requests not yet settled. -/
structure Sys where
  form : FormState
  inflight : List PostRequest
deriving DecidableEq, Repr

/-- The component after mount. -/
def Sys.init : Sys := { form := initialState, inflight := [] }

/-- What can happen to the rendered form.  `updateChange` and `removeUpdate` carry the
position of the rendered entry whose input or button fired; `respond k r` settles the
`k`-th outstanding request with result `r`. -/
inductive Event where
  | setName (value : String)
  | setTaskName (value : String)
  | setRepoLink (value : String)
  | updateChange (index : Nat) (field : Field) (value : String)
  | addUpdate
  | removeUpdate (index : Nat)
  | submit
  | respond (k : Nat) (r : PostResult)
deriving DecidableEq, Repr

/-- One event.  `none` when the rendered form does not offer the event: an entry input
exists for `index < taskUpdates.length` only, the remove button is rendered under
`taskUpdates.length > 1` only, and only an outstanding request can settle. -/
def step (σ : Sys) (ev : Event) : Option Sys :=
  match ev with
  | Event.setName v => some { σ with form := { σ.form with name := v } }
  | Event.setTaskName v => some { σ with form := { σ.form with taskName := v } }
  | Event.setRepoLink v => some { σ with form := { σ.form with repoLink := v } }
  | Event.updateChange index field v =>
    if index < σ.form.taskUpdates.length then
      some { σ with form := (applyUpdateChange σ.form index field v).1 }
    else none
  | Event.addUpdate =>
    some { σ with form := { σ.form with taskUpdates := addUpdateField σ.form.taskUpdates } }
  | Event.removeUpdate index =>
    if index < σ.form.taskUpdates.length ∧ σ.form.taskUpdates.length > 1 then
      some { σ with
        form := { σ.form with taskUpdates := removeUpdateField σ.form.taskUpdates index } }
    else none
  | Event.submit =>
    match submitStart σ.form with
    | (s1, none) => some { σ with form := s1 }
    | (s1, some req) => some { form := s1, inflight := σ.inflight ++ [req] }
  | Event.respond k r =>
    if k < σ.inflight.length then
      some { form := submitResponse σ.form r, inflight := σ.inflight.eraseIdx k }
    else none

/-- Run a sequence of events from `σ`; `none` as soon as one of them is not offered. -/
def run (σ : Sys) : List Event → Option Sys
  | [] => some σ
  | ev :: evs =>
    match step σ ev with
    | some σ1 => run σ1 evs
    | none => none

/-- The states the component can be in: those some sequence of events leads to. -/
def Reachable (σ : Sys) : Prop := ∃ evs, run Sys.init evs = some σ

/-- The events that are edits of the form: every event but a submission and the settling
of a request. -/
def Event.isEdit : Event → Bool
  | Event.setName _ => true
  | Event.setTaskName _ => true
  | Event.setRepoLink _ => true
  | Event.updateChange _ _ _ => true
  | Event.addUpdate => true
  | Event.removeUpdate _ => true
  | Event.submit => false
  | Event.respond _ _ => false

/-- One run of `handleSubmit` in the running component.  The part before the `await` runs
on the current state; when validation fails the run ends there.  Otherwise the component
stays interactive: it handles the events `during` (edits, further submissions, the settling
of other requests) while this POST is outstanding, and the part after the `await` then
runs with the result `r` on the state these events left.  `σ.inflight` holds the other
outstanding requests; the request of this run is kept aside.  `none` when the form does
not offer the events of `during`. -/
def handleSubmitInterleaved (σ : Sys) (during : List Event) (r : PostResult) : Option Sys :=
  match submitStart σ.form with
  | (s1, none) => some { σ with form := s1 }
  | (s1, some _) =>
    match run { form := s1, inflight := σ.inflight } during with
    | some σ2 => some { form := submitResponse σ2.form r, inflight := σ2.inflight }
    | none => none

/-- One event under the discipline that the form is not submitted while a request is
outstanding. -/
def stepSeq (σ : Sys) (ev : Event) : Option Sys :=
  match ev with
  | Event.submit => if σ.inflight = [] then step σ Event.submit else none
  | other => step σ other

/-- Run a sequence of events under the discipline of `stepSeq`. -/
def runSeq (σ : Sys) : List Event → Option Sys
  | [] => some σ
  | ev :: evs =>
    match stepSeq σ ev with
    | some σ1 => runSeq σ1 evs
    | none => none

/-- The states reachable when no submission starts before the previous one has settled. -/
def ReachableSeq (σ : Sys) : Prop := ∃ evs, runSeq Sys.init evs = some σ

/-- The response state is consistent: not both messages are shown. -/
def MessagesExclusive (s : FormState) : Prop := ¬ (s.message ≠ "" ∧ s.error ≠ "")

instance (s : FormState) : Decidable (MessagesExclusive s) := by
  unfold MessagesExclusive; infer_instance

/-- The invariant behind the exclusiveness of the messages when submissions do not
overlap: at most one request is outstanding, and while one is, both messages are empty. -/
def SeqInv (σ : Sys) : Prop :=
  σ.inflight.length ≤ 1 ∧
  (σ.inflight ≠ [] → σ.form.message = "" ∧ σ.form.error = "") ∧
  MessagesExclusive σ.form

/-- Every required field is filled in: name, task name, repository link and the text of
every update entry are non-empty. -/
def FormValid (s : FormState) : Prop :=
  s.name ≠ "" ∧ s.taskName ≠ "" ∧ s.repoLink ≠ "" ∧ ∀ upd ∈ s.taskUpdates, upd.text ≠ ""

instance (s : FormState) : Decidable (FormValid s) := by
  unfold FormValid; infer_instance

/-- A filled-in form used in the examples: every required field has a value. -/
def filledForm : FormState :=
  { name := "Ada", taskName := "parser", repoLink := "https://example.org/repo",
    taskUpdates := [{ text := "first draft", link := some "" }],
    message := "", error := "" }

/-- Edits made while a request is outstanding: the name is retyped and an entry added. -/
def editsWhileWaiting : List Event := [Event.setName "Grace", Event.addUpdate]

/-- The component after `filledForm` was submitted and `editsWhileWaiting` were made. -/
def afterEditsWhileWaiting : Sys :=
  { form :=
      { name := "Grace", taskName := "parser", repoLink := "https://example.org/repo",
        taskUpdates := [{ text := "first draft", link := some "" }, { text := "", link := some "" }],
        message := "", error := "" },
    inflight := [] }

/-- The events that fill the mounted form in as `filledForm`, submit it twice in a row,
and then let the first request resolve and the second be rejected. -/
def overlappingSubmits : List Event :=
  [Event.setName "Ada", Event.setTaskName "parser",
   Event.setRepoLink "https://example.org/repo",
   Event.updateChange 0 Field.text "first draft",
   Event.submit, Event.submit,
   Event.respond 0 (PostResult.resolved (some "T1")),
   Event.respond 0 (PostResult.rejected (some "duplicate task") "Request failed with status code 409")]

end TaskForm

namespace TaskForm

/-! ## Lemmas on the array primitives -/

theorem filterWithIndex_all {α : Type} (p : α → Nat → Bool) (xs : List α) :
    ∀ k : Nat, (∀ j : Nat, k ≤ j → j < k + xs.length → ∀ x, p x j = true) →
      filterWithIndex p xs k = xs := by
  induction xs with
  | nil => intro k _; rfl
  | cons x xs ih =>
    intro k h
    have hx : p x k = true := h k (Nat.le_refl k) (by simp) x
    have hrest : filterWithIndex p xs (k + 1) = xs := by
      apply ih
      intro j h1 h2 y
      exact h j (by omega) (by simp; omega) y
    simp [filterWithIndex, hx, hrest]

theorem filterWithIndex_ne_index {α : Type} (xs : List α) (index : Int) :
    ∀ k : Nat, (index < k ∨ (k : Int) + xs.length ≤ index) →
      filterWithIndex (fun _ i => decide ((i : Int) ≠ index)) xs k = xs := by
  intro k h
  apply filterWithIndex_all
  intro j h1 h2 _
  simp only [ne_eq, decide_eq_true_eq]
  omega

theorem filterWithIndex_at_index {α : Type} (xs : List α) :
    ∀ (k n : Nat), n < xs.length →
      filterWithIndex (fun _ i => decide ((i : Int) ≠ ((k + n : Nat) : Int))) xs k
        = xs.eraseIdx n := by
  induction xs with
  | nil => intro k n h; simp at h
  | cons x xs ih =>
    intro k n h
    cases n with
    | zero =>
      have hrest := filterWithIndex_ne_index xs ((k + 0 : Nat) : Int) (k + 1)
        (Or.inl (by omega))
      rw [filterWithIndex, if_neg (by simp), hrest]
      rfl
    | succ n =>
      have hlt : n < xs.length := by simpa using h
      have hrest := ih (k + 1) n hlt
      have hidx : k + 1 + n = k + (n + 1) := by omega
      rw [hidx] at hrest
      have hk : (fun (_ : α) (i : Nat) => decide ((i : Int) ≠ ((k + (n + 1) : Nat) : Int))) x k
          = true := by
        simp only [ne_eq, decide_eq_true_eq]
        omega
      rw [filterWithIndex, if_pos hk, hrest]
      rfl

theorem removeUpdateField_in_bounds (taskUpdates : List UpdateEntry) (i : Nat)
    (h : i < taskUpdates.length) :
    removeUpdateField taskUpdates (i : Int) = taskUpdates.eraseIdx i := by
  have := filterWithIndex_at_index taskUpdates 0 i h
  simpa [removeUpdateField] using this

theorem removeUpdateField_out_of_bounds (taskUpdates : List UpdateEntry) (index : Int)
    (h : index < 0 ∨ (taskUpdates.length : Int) ≤ index) :
    removeUpdateField taskUpdates index = taskUpdates := by
  unfold removeUpdateField
  apply filterWithIndex_ne_index
  rcases h with h | h
  · left; omega
  · right; simpa using h

theorem arrayGet_in_bounds {α : Type} (arr : List α) (i : Nat) :
    arrayGet arr (i : Int) = arr[i]? := by
  simp [arrayGet]

theorem arrayGet_out_of_bounds {α : Type} (arr : List α) (index : Int)
    (h : index < 0 ∨ (arr.length : Int) ≤ index) : arrayGet arr index = none := by
  unfold arrayGet
  rcases h with h | h
  · have : ¬ (0 ≤ index) := by omega
    simp [this]
  · have h0 : 0 ≤ index := by omega
    have : arr.length ≤ index.toNat := by omega
    simp [h0, List.getElem?_eq_none this]

theorem handleUpdateChange_ok (taskUpdates : List UpdateEntry) (i : Nat) (field : Field)
    (value : String) (h : i < taskUpdates.length) :
    handleUpdateChange taskUpdates (i : Int) field value
      = Except.ok (taskUpdates.set i (setField taskUpdates[i] field value)) := by
  simp [handleUpdateChange, arrayGet_in_bounds, List.getElem?_eq_getElem h]

end TaskForm

namespace TaskForm

/-! ## Editing the entry sequence -/

/-- C5: for an index within the bounds `removeUpdateField` returns a sequence one shorter
in which the entries before the index keep their positions and values and the entries
after it each move down by one position; for an index outside the bounds (negative, or at
least the length) the sequence is returned unchanged. -/
theorem removeUpdateField_spec (taskUpdates : List UpdateEntry) (index : Int) :
    (0 ≤ index ∧ index < taskUpdates.length →
      (removeUpdateField taskUpdates index).length + 1 = taskUpdates.length ∧
      (∀ j : Nat, (j : Int) < index →
        (removeUpdateField taskUpdates index)[j]? = taskUpdates[j]?) ∧
      (∀ j : Nat, index ≤ (j : Int) →
        (removeUpdateField taskUpdates index)[j]? = taskUpdates[j + 1]?)) ∧
    (index < 0 ∨ (taskUpdates.length : Int) ≤ index →
      removeUpdateField taskUpdates index = taskUpdates) := by
  refine ⟨?_, removeUpdateField_out_of_bounds taskUpdates index⟩
  rintro ⟨h0, hlt⟩
  obtain ⟨i, rfl⟩ := Int.eq_ofNat_of_zero_le h0
  have hi : i < taskUpdates.length := by exact_mod_cast hlt
  rw [removeUpdateField_in_bounds taskUpdates i hi]
  refine ⟨?_, ?_, ?_⟩
  · rw [List.length_eraseIdx_of_lt hi]; omega
  · intro j hj
    exact List.getElem?_eraseIdx_of_lt taskUpdates i j (by exact_mod_cast hj)
  · intro j hj
    exact List.getElem?_eraseIdx_of_ge taskUpdates i j (by exact_mod_cast hj)

/-- Witness for C5: removing position 1 of a three-entry sequence, and an index outside
the bounds of the same sequence. -/
theorem removeUpdateField_spec_witness :
    ((removeUpdateField [⟨"a", some ""⟩, ⟨"b", none⟩, ⟨"c", some "l"⟩] 1).length + 1 = 3 ∧
      (∀ j : Nat, (j : Int) < 1 →
        (removeUpdateField [⟨"a", some ""⟩, ⟨"b", none⟩, ⟨"c", some "l"⟩] 1)[j]?
          = ([⟨"a", some ""⟩, ⟨"b", none⟩, ⟨"c", some "l"⟩] : List UpdateEntry)[j]?) ∧
      (∀ j : Nat, (1 : Int) ≤ (j : Int) →
        (removeUpdateField [⟨"a", some ""⟩, ⟨"b", none⟩, ⟨"c", some "l"⟩] 1)[j]?
          = ([⟨"a", some ""⟩, ⟨"b", none⟩, ⟨"c", some "l"⟩] : List UpdateEntry)[j + 1]?)) ∧
    removeUpdateField [⟨"a", some ""⟩, ⟨"b", none⟩, ⟨"c", some "l"⟩] 3
      = [⟨"a", some ""⟩, ⟨"b", none⟩, ⟨"c", some "l"⟩] ∧
    removeUpdateField [⟨"a", some ""⟩, ⟨"b", none⟩, ⟨"c", some "l"⟩] 1
      = [⟨"a", some ""⟩, ⟨"c", some "l"⟩] :=
  ⟨(removeUpdateField_spec [⟨"a", some ""⟩, ⟨"b", none⟩, ⟨"c", some "l"⟩] 1).1
      ⟨by decide, by decide⟩,
    (removeUpdateField_spec [⟨"a", some ""⟩, ⟨"b", none⟩, ⟨"c", some "l"⟩] 3).2
      (Or.inr (by decide)),
    by decide⟩

/-- C6: `addUpdateField` returns the original sequence followed by one new entry
`{ text: '', link: '' }`: the length grows by one, every prior position holds the entry
it held before, and the new entry is last. -/
theorem addUpdateField_spec (taskUpdates : List UpdateEntry) :
    addUpdateField taskUpdates = taskUpdates ++ [{ text := "", link := some "" }] ∧
    (addUpdateField taskUpdates).length = taskUpdates.length + 1 ∧
    (∀ j : Nat, j < taskUpdates.length → (addUpdateField taskUpdates)[j]? = taskUpdates[j]?) ∧
    (addUpdateField taskUpdates)[taskUpdates.length]? = some { text := "", link := some "" } ∧
    (addUpdateField taskUpdates).getLast? = some { text := "", link := some "" } := by
  refine ⟨rfl, ?_, ?_, ?_, ?_⟩
  · simp [addUpdateField]
  · intro j hj
    simp [addUpdateField, List.getElem?_append_left hj]
  · simp [addUpdateField, emptyEntry]
  · simp [addUpdateField, emptyEntry]

/-- Witness for C6: adding an entry to a two-entry sequence. -/
theorem addUpdateField_spec_witness :
    addUpdateField [⟨"a", some "l"⟩, ⟨"b", none⟩] = [⟨"a", some "l"⟩, ⟨"b", none⟩, ⟨"", some ""⟩] ∧
    (addUpdateField [⟨"a", some "l"⟩, ⟨"b", none⟩])[1]?
      = ([⟨"a", some "l"⟩, ⟨"b", none⟩] : List UpdateEntry)[1]? :=
  ⟨(addUpdateField_spec [⟨"a", some "l"⟩, ⟨"b", none⟩]).1,
    (addUpdateField_spec [⟨"a", some "l"⟩, ⟨"b", none⟩]).2.2.1 1 (by decide)⟩

/-- C7, as the code has it: for an index outside the bounds (negative, or at least the
length) `handleUpdateChange` throws a `TypeError` before `setTaskUpdates` is reached, so
the component state, the entry sequence included, stays as it was, but the failure is
not silent. -/
theorem handleUpdateChange_out_of_bounds (s : FormState) (index : Int) (field : Field)
    (value : String) (h : index < 0 ∨ (s.taskUpdates.length : Int) ≤ index) :
    handleUpdateChange s.taskUpdates index field value
      = Except.error JSError.typeError ∧
    applyUpdateChange s index field value
      = (s, some JSError.typeError) := by
  have hget := arrayGet_out_of_bounds s.taskUpdates index h
  have hthrow : handleUpdateChange s.taskUpdates index field value
      = Except.error JSError.typeError := by
    simp [handleUpdateChange, hget]
  exact ⟨hthrow, by simp [applyUpdateChange, hthrow]⟩

/-- Witness for C7 as amended: index `-1` on the initial one-entry sequence. -/
theorem handleUpdateChange_out_of_bounds_witness :
    handleUpdateChange initialState.taskUpdates (-1) Field.link "x"
      = Except.error JSError.typeError ∧
    applyUpdateChange initialState (-1) Field.link "x"
      = (initialState, some JSError.typeError) :=
  handleUpdateChange_out_of_bounds initialState (-1) Field.link "x" (Or.inl (by decide))

/-- C7 as stated fails: on the one-entry sequence of the initial state, index `1` is out
of bounds and `handleUpdateChange(1, 'text', 'x')` does not return a sequence, it throws. -/
theorem handleUpdateChange_out_of_bounds_throws :
    handleUpdateChange [{ text := "", link := some "" }] 1 Field.text "x"
      = Except.error JSError.typeError ∧
    (applyUpdateChange initialState 1 Field.text "x").2 ≠ none ∧
    ¬ (applyUpdateChange initialState 1 Field.text "x" = (initialState, none)) :=
  ⟨rfl, by decide, by decide⟩

/-- C8: for an index within the bounds `handleUpdateChange` returns a sequence of the
same length in which the entry at the index has the named field equal to the value and
its other field as before, and every other position holds the entry it held before. -/
theorem handleUpdateChange_in_bounds (taskUpdates : List UpdateEntry) (i : Nat)
    (field : Field) (value : String) (h : i < taskUpdates.length) :
    ∃ newUpdates : List UpdateEntry,
      handleUpdateChange taskUpdates (i : Int) field value = Except.ok newUpdates ∧
      newUpdates.length = taskUpdates.length ∧
      (∃ old new : UpdateEntry, taskUpdates[i]? = some old ∧ newUpdates[i]? = some new ∧
        (field = Field.text → new.text = value ∧ new.link = old.link) ∧
        (field = Field.link → new.link = some value ∧ new.text = old.text)) ∧
      (∀ j : Nat, j ≠ i → newUpdates[j]? = taskUpdates[j]?) := by
  refine ⟨_, handleUpdateChange_ok taskUpdates i field value h, by simp, ?_, ?_⟩
  · refine ⟨taskUpdates[i], setField taskUpdates[i] field value,
      List.getElem?_eq_getElem h, ?_, ?_, ?_⟩
    · simp [List.getElem?_set, h]
    · rintro rfl; exact ⟨rfl, rfl⟩
    · rintro rfl; exact ⟨rfl, rfl⟩
  · intro j hj
    exact List.getElem?_set_ne (Ne.symm hj)

/-- Witness for C8: writing the link of the second of three entries. -/
theorem handleUpdateChange_in_bounds_witness :
    ∃ newUpdates : List UpdateEntry,
      handleUpdateChange [⟨"a", some ""⟩, ⟨"b", none⟩, ⟨"c", some "l"⟩] 1 Field.link "v"
        = Except.ok newUpdates ∧
      newUpdates.length = 3 ∧
      (∃ old new : UpdateEntry,
        ([⟨"a", some ""⟩, ⟨"b", none⟩, ⟨"c", some "l"⟩] : List UpdateEntry)[1]? = some old ∧
        newUpdates[1]? = some new ∧
        (Field.link = Field.text → new.text = "v" ∧ new.link = old.link) ∧
        (Field.link = Field.link → new.link = some "v" ∧ new.text = old.text)) ∧
      (∀ j : Nat, j ≠ 1 → newUpdates[j]?
        = ([⟨"a", some ""⟩, ⟨"b", none⟩, ⟨"c", some "l"⟩] : List UpdateEntry)[j]?) :=
  handleUpdateChange_in_bounds [⟨"a", some ""⟩, ⟨"b", none⟩, ⟨"c", some "l"⟩] 1 Field.link "v"
    (by decide)

end TaskForm

namespace TaskForm

/-! ## Submitting -/

theorem validationFails_iff (s : FormState) :
    validationFails s = true ↔
      (s.name = "" ∨ s.taskName = "" ∨ s.repoLink = "" ∨
        ∃ upd ∈ s.taskUpdates, upd.text = "") := by
  simp [validationFails, strFalsy, or_assoc]

theorem validationFails_of_valid (s : FormState) (h : FormValid s) :
    validationFails s = false := by
  cases hv : validationFails s with
  | false => rfl
  | true =>
    obtain ⟨h1, h2, h3, h4⟩ := h
    rcases (validationFails_iff s).mp hv with h | h | h | ⟨upd, hmem, h⟩
    · exact absurd h h1
    · exact absurd h h2
    · exact absurd h h3
    · exact absurd h (h4 upd hmem)

theorem handleSubmit_of_invalid (s : FormState) (net : PostRequest → PostResult)
    (h : validationFails s = true) :
    handleSubmit s net
      = ({ s with message := "", error := validationMessage }, []) := by
  simp [handleSubmit, submitStart, h]

theorem handleSubmit_of_valid (s : FormState) (net : PostRequest → PostResult)
    (h : validationFails s = false) :
    handleSubmit s net
      = (submitResponse { s with message := "", error := "" }
          (net { url := API_ENDPOINT, body := buildPayload s }),
         [{ url := API_ENDPOINT, body := buildPayload s }]) := by
  simp [handleSubmit, submitStart, h]

theorem jsOr_empty (a : Option String) :
    jsOr a "" = (match a with
      | none => ""
      | some l => l) := by
  cases a with
  | none => rfl
  | some l =>
    by_cases hl : l = ""
    · simp [jsOr, strFalsy, hl]
    · simp [jsOr, strFalsy, hl]

/-- C1: when the name, the task name or the repository link is empty, or some update
entry has empty text, `handleSubmit` issues no request, sets the error message to the
static validation text, leaves the success message empty and leaves name, task name,
repository link and the entry sequence as they were. -/
theorem handleSubmit_validation_error (s : FormState) (net : PostRequest → PostResult)
    (h : s.name = "" ∨ s.taskName = "" ∨ s.repoLink = "" ∨
      ∃ upd ∈ s.taskUpdates, upd.text = "") :
    (handleSubmit s net).2 = [] ∧
    (handleSubmit s net).1.error =
      "Please fill in all required fields (Name, Task Name, Repo Link, and at least one update text)." ∧
    (handleSubmit s net).1.message = "" ∧
    (handleSubmit s net).1.name = s.name ∧
    (handleSubmit s net).1.taskName = s.taskName ∧
    (handleSubmit s net).1.repoLink = s.repoLink ∧
    (handleSubmit s net).1.taskUpdates = s.taskUpdates := by
  rw [handleSubmit_of_invalid s net ((validationFails_iff s).mpr h)]
  exact ⟨rfl, rfl, rfl, rfl, rfl, rfl, rfl⟩

/-- Witness for C1: everything is filled in except the text of the second entry, and an
old success message is still shown. -/
theorem handleSubmit_validation_error_witness :
    (handleSubmit
      { name := "Ada", taskName := "t", repoLink := "https://example.org/r",
        taskUpdates := [⟨"done", some ""⟩, ⟨"", some "https://example.org/x"⟩],
        message := "old", error := "" }
      (fun _ => PostResult.resolved (some "T1"))).2 = [] ∧
    (handleSubmit
      { name := "Ada", taskName := "t", repoLink := "https://example.org/r",
        taskUpdates := [⟨"done", some ""⟩, ⟨"", some "https://example.org/x"⟩],
        message := "old", error := "" }
      (fun _ => PostResult.resolved (some "T1"))).1.message = "" :=
  ⟨(handleSubmit_validation_error _ _
      (Or.inr (Or.inr (Or.inr ⟨⟨"", some "https://example.org/x"⟩, by decide, rfl⟩)))).1,
   (handleSubmit_validation_error _ _
      (Or.inr (Or.inr (Or.inr ⟨⟨"", some "https://example.org/x"⟩, by decide, rfl⟩)))).2.2.1⟩

/-- C2: when name, task name, repository link and every entry text are non-empty,
`handleSubmit` issues exactly one POST, to `API_ENDPOINT`, whose payload carries the
current name, task name and repository link and a `task_updates` list as long as the
entry sequence whose i-th element has the i-th entry's text and link, an absent link
becoming the empty string. -/
theorem handleSubmit_valid_request (s : FormState) (net : PostRequest → PostResult)
    (h : FormValid s) :
    ∃ payload : Payload,
      (handleSubmit s net).2 = [{ url := "https://poridhi-tesk.vercel.app/add_task", body := payload }] ∧
      payload.name = s.name ∧
      payload.task_name = s.taskName ∧
      payload.repo_link = s.repoLink ∧
      payload.task_updates.length = s.taskUpdates.length ∧
      ∀ (i : Nat) (upd : UpdateEntry), s.taskUpdates[i]? = some upd →
        payload.task_updates[i]? = some
          { text := upd.text
            link := match upd.link with
              | none => ""
              | some l => l } := by
  refine ⟨buildPayload s, ?_, rfl, rfl, rfl, by simp [buildPayload], ?_⟩
  · rw [handleSubmit_of_valid s net (validationFails_of_valid s h)]
    rfl
  · intro i upd hi
    simp [buildPayload, hi, jsOr_empty]

/-- Witness for C2: a valid form with three entries, with a filled, an empty and an absent
link. -/
theorem handleSubmit_valid_request_witness :
    ∃ payload : Payload,
      (handleSubmit
        { name := "Ada", taskName := "t", repoLink := "https://example.org/r",
          taskUpdates := [⟨"one", some "https://example.org/1"⟩, ⟨"two", some ""⟩, ⟨"three", none⟩],
          message := "", error := "" }
        (fun _ => PostResult.resolved (some "T1"))).2
        = [{ url := "https://poridhi-tesk.vercel.app/add_task", body := payload }] ∧
      payload.name = "Ada" ∧ payload.task_name = "t" ∧
      payload.repo_link = "https://example.org/r" ∧
      payload.task_updates.length = 3 ∧
      ∀ (i : Nat) (upd : UpdateEntry),
        ([⟨"one", some "https://example.org/1"⟩, ⟨"two", some ""⟩, ⟨"three", none⟩] :
          List UpdateEntry)[i]? = some upd →
        payload.task_updates[i]? = some
          { text := upd.text
            link := match upd.link with
              | none => ""
              | some l => l } :=
  handleSubmit_valid_request
    { name := "Ada", taskName := "t", repoLink := "https://example.org/r",
      taskUpdates := [⟨"one", some "https://example.org/1"⟩, ⟨"two", some ""⟩, ⟨"three", none⟩],
      message := "", error := "" }
    (fun _ => PostResult.resolved (some "T1")) (by decide)

end TaskForm

namespace TaskForm

/-! ## Invariants of the component -/

theorem handleUpdateChange_length (taskUpdates newUpdates : List UpdateEntry) (index : Int)
    (field : Field) (value : String)
    (h : handleUpdateChange taskUpdates index field value = Except.ok newUpdates) :
    newUpdates.length = taskUpdates.length := by
  simp only [handleUpdateChange] at h
  split at h
  · cases h
  · cases h
    simp

theorem applyUpdateChange_frame (s : FormState) (index : Int) (field : Field)
    (value : String) :
    (applyUpdateChange s index field value).1.taskUpdates.length = s.taskUpdates.length ∧
    (applyUpdateChange s index field value).1.message = s.message ∧
    (applyUpdateChange s index field value).1.error = s.error := by
  unfold applyUpdateChange
  split
  · next newUpdates hok =>
    exact ⟨handleUpdateChange_length _ _ _ _ _ hok, rfl, rfl⟩
  · exact ⟨rfl, rfl, rfl⟩

theorem submitStart_frame (s : FormState) :
    (submitStart s).1.taskUpdates = s.taskUpdates ∧ (submitStart s).1.message = "" ∧
    ((submitStart s).2 ≠ none → (submitStart s).1.error = "") := by
  unfold submitStart
  by_cases hv : validationFails s = true
  · simp [hv]
  · simp [hv]

theorem submitResponse_taskUpdates_length (s : FormState) (r : PostResult)
    (h : 1 ≤ s.taskUpdates.length) : 1 ≤ (submitResponse s r).taskUpdates.length := by
  cases r with
  | resolved taskId => simp [submitResponse]
  | rejected responseError errMessage => simpa [submitResponse] using h

theorem step_taskUpdates_nonempty (σ σ1 : Sys) (ev : Event)
    (h : 1 ≤ σ.form.taskUpdates.length) (hstep : step σ ev = some σ1) :
    1 ≤ σ1.form.taskUpdates.length := by
  cases ev with
  | setName v => simp [step] at hstep; subst hstep; exact h
  | setTaskName v => simp [step] at hstep; subst hstep; exact h
  | setRepoLink v => simp [step] at hstep; subst hstep; exact h
  | updateChange index field v =>
    simp only [step] at hstep
    split at hstep
    · cases hstep
      show 1 ≤ (applyUpdateChange σ.form index field v).1.taskUpdates.length
      rw [(applyUpdateChange_frame σ.form index field v).1]
      exact h
    · cases hstep
  | addUpdate =>
    simp [step] at hstep
    subst hstep
    simp [addUpdateField]
  | removeUpdate index =>
    simp only [step] at hstep
    split at hstep
    · next hguard =>
      cases hstep
      show 1 ≤ (removeUpdateField σ.form.taskUpdates index).length
      rw [removeUpdateField_in_bounds _ _ hguard.1, List.length_eraseIdx_of_lt hguard.1]
      omega
    · cases hstep
  | submit =>
    simp only [step] at hstep
    have hframe := (submitStart_frame σ.form).1
    split at hstep
    · next s1 heq =>
      cases hstep
      rw [heq] at hframe
      show 1 ≤ s1.taskUpdates.length
      rw [show s1.taskUpdates = σ.form.taskUpdates from hframe]
      exact h
    · next s1 req heq =>
      cases hstep
      rw [heq] at hframe
      show 1 ≤ s1.taskUpdates.length
      rw [show s1.taskUpdates = σ.form.taskUpdates from hframe]
      exact h
  | respond k r =>
    simp only [step] at hstep
    split at hstep
    · cases hstep
      exact submitResponse_taskUpdates_length σ.form r h
    · cases hstep

theorem run_taskUpdates_nonempty (evs : List Event) :
    ∀ σ σ1 : Sys, 1 ≤ σ.form.taskUpdates.length → run σ evs = some σ1 →
      1 ≤ σ1.form.taskUpdates.length := by
  induction evs with
  | nil =>
    intro σ σ1 h hrun
    simp [run] at hrun
    subst hrun
    exact h
  | cons ev evs ih =>
    intro σ σ1 h hrun
    simp only [run] at hrun
    split at hrun
    · next σ2 hstep =>
      exact ih σ2 σ1 (step_taskUpdates_nonempty σ σ2 ev h hstep) hrun
    · cases hrun

/-- C9: in every state reachable from the mounted component by the events the form
offers (edits of the three scalar fields, edits of a rendered entry, adding an entry,
removing an entry while more than one is shown, submitting, and a pending request
settling either way, in any interleaving), the entry sequence has at least one entry. -/
theorem reachable_taskUpdates_nonempty (σ : Sys) (h : Reachable σ) :
    1 ≤ σ.form.taskUpdates.length := by
  obtain ⟨evs, hrun⟩ := h
  exact run_taskUpdates_nonempty evs Sys.init σ (by decide) hrun

/-- Witness for C9: the state after adding two entries and removing the first one. -/
theorem reachable_taskUpdates_nonempty_witness :
    1 ≤ ({ form := { initialState with taskUpdates := [emptyEntry, emptyEntry] },
           inflight := [] } : Sys).form.taskUpdates.length :=
  reachable_taskUpdates_nonempty _
    ⟨[Event.addUpdate, Event.addUpdate, Event.removeUpdate 0], by decide⟩

end TaskForm

namespace TaskForm

/-! ## The two messages -/

theorem seqInv_of_same_messages (σ σ1 : Sys) (h : SeqInv σ)
    (hin : σ1.inflight = σ.inflight) (hm : σ1.form.message = σ.form.message)
    (he : σ1.form.error = σ.form.error) : SeqInv σ1 := by
  unfold SeqInv MessagesExclusive at *
  rw [hin, hm, he]
  exact h

theorem stepSeq_seqInv (σ σ1 : Sys) (ev : Event) (h : SeqInv σ)
    (hstep : stepSeq σ ev = some σ1) : SeqInv σ1 := by
  cases ev with
  | setName v =>
    simp [stepSeq, step] at hstep; subst hstep
    exact seqInv_of_same_messages σ _ h rfl rfl rfl
  | setTaskName v =>
    simp [stepSeq, step] at hstep; subst hstep
    exact seqInv_of_same_messages σ _ h rfl rfl rfl
  | setRepoLink v =>
    simp [stepSeq, step] at hstep; subst hstep
    exact seqInv_of_same_messages σ _ h rfl rfl rfl
  | updateChange index field v =>
    simp only [stepSeq, step] at hstep
    split at hstep
    · cases hstep
      have hf := applyUpdateChange_frame σ.form index field v
      exact seqInv_of_same_messages σ _ h rfl hf.2.1 hf.2.2
    · cases hstep
  | addUpdate =>
    simp [stepSeq, step] at hstep; subst hstep
    exact seqInv_of_same_messages σ _ h rfl rfl rfl
  | removeUpdate index =>
    simp only [stepSeq, step] at hstep
    split at hstep
    · cases hstep
      exact seqInv_of_same_messages σ _ h rfl rfl rfl
    · cases hstep
  | submit =>
    simp only [stepSeq] at hstep
    split at hstep
    · next hidle =>
      simp only [step] at hstep
      have hframe := submitStart_frame σ.form
      split at hstep
      · next s1 heq =>
        cases hstep
        rw [heq] at hframe
        have hmsg : s1.message = "" := hframe.2.1
        refine ⟨by simp [hidle], fun hne => absurd hidle hne, ?_⟩
        intro hboth
        exact hboth.1 hmsg
      · next s1 req heq =>
        cases hstep
        rw [heq] at hframe
        have hmsg : s1.message = "" := hframe.2.1
        have herr : s1.error = "" := hframe.2.2 (by simp)
        refine ⟨by simp [hidle], fun _ => ⟨hmsg, herr⟩, ?_⟩
        intro hboth
        exact hboth.1 hmsg
    · cases hstep
  | respond k r =>
    simp only [stepSeq, step] at hstep
    split at hstep
    · next hk =>
      cases hstep
      obtain ⟨hlen, hclear, _⟩ := h
      have hne : σ.inflight ≠ [] := by
        intro hnil
        rw [hnil] at hk
        simp at hk
      obtain ⟨hmsg, herr⟩ := hclear hne
      have hk0 : k = 0 := by omega
      have hlen1 : σ.inflight.length = 1 := by omega
      have hnone : (σ.inflight.eraseIdx k).length = 0 := by
        rw [List.length_eraseIdx_of_lt hk]; omega
      refine ⟨?_, ?_, ?_⟩
      · show (σ.inflight.eraseIdx k).length ≤ 1
        omega
      · intro hrest
        exact absurd (List.eq_nil_of_length_eq_zero hnone) hrest
      · cases r with
        | resolved taskId =>
          intro hboth
          exact hboth.2 herr
        | rejected responseError errMessage =>
          intro hboth
          exact hboth.1 hmsg
    · cases hstep

theorem runSeq_seqInv (evs : List Event) :
    ∀ σ σ1 : Sys, SeqInv σ → runSeq σ evs = some σ1 → SeqInv σ1 := by
  induction evs with
  | nil =>
    intro σ σ1 h hrun
    simp [runSeq] at hrun
    subst hrun
    exact h
  | cons ev evs ih =>
    intro σ σ1 h hrun
    simp only [runSeq] at hrun
    split at hrun
    · next σ2 hstep =>
      exact ih σ2 σ1 (stepSeq_seqInv σ σ2 ev h hstep) hrun
    · cases hrun

theorem seqInv_init : SeqInv Sys.init :=
  ⟨by decide, fun h => absurd rfl h, by decide⟩

/-- C10, as the code has it: in every state reachable from the mounted component by form
edits and submission attempts in which no attempt starts while the request of an earlier
attempt is still outstanding, the success message and the error message are not both
non-empty: the response state is idle, success or error. -/
theorem reachableSeq_messages_exclusive (σ : Sys) (h : ReachableSeq σ) :
    MessagesExclusive σ.form ∧
    ((σ.form.message = "" ∧ σ.form.error = "") ∨
     (σ.form.message ≠ "" ∧ σ.form.error = "") ∨
     (σ.form.message = "" ∧ σ.form.error ≠ "")) := by
  obtain ⟨evs, hrun⟩ := h
  have hinv := (runSeq_seqInv evs Sys.init σ seqInv_init hrun).2.2
  refine ⟨hinv, ?_⟩
  unfold MessagesExclusive at hinv
  by_cases hm : σ.form.message = ""
  · by_cases he : σ.form.error = ""
    · exact Or.inl ⟨hm, he⟩
    · exact Or.inr (Or.inr ⟨hm, he⟩)
  · by_cases he : σ.form.error = ""
    · exact Or.inr (Or.inl ⟨hm, he⟩)
    · exact absurd ⟨hm, he⟩ hinv

/-- Witness for C10 as amended: the form is filled in, submitted and rejected, then
submitted again and accepted. -/
theorem reachableSeq_messages_exclusive_witness :
    MessagesExclusive
      ({ form := { initialState with message := "Task submitted successfully! Task ID: T1" },
         inflight := [] } : Sys).form ∧
    ((({ form := { initialState with message := "Task submitted successfully! Task ID: T1" },
         inflight := [] } : Sys).form.message = "" ∧
      ({ form := { initialState with message := "Task submitted successfully! Task ID: T1" },
         inflight := [] } : Sys).form.error = "") ∨
     (({ form := { initialState with message := "Task submitted successfully! Task ID: T1" },
         inflight := [] } : Sys).form.message ≠ "" ∧
      ({ form := { initialState with message := "Task submitted successfully! Task ID: T1" },
         inflight := [] } : Sys).form.error = "") ∨
     (({ form := { initialState with message := "Task submitted successfully! Task ID: T1" },
         inflight := [] } : Sys).form.message = "" ∧
      ({ form := { initialState with message := "Task submitted successfully! Task ID: T1" },
         inflight := [] } : Sys).form.error ≠ "")) :=
  reachableSeq_messages_exclusive _
    ⟨[Event.setName "Ada", Event.setTaskName "parser",
      Event.setRepoLink "https://example.org/repo",
      Event.updateChange 0 Field.text "first draft",
      Event.submit,
      Event.respond 0 (PostResult.rejected none "Network Error"),
      Event.submit,
      Event.respond 0 (PostResult.resolved (some "T1"))], by decide⟩

/-- C10 as stated fails: after the filled-in form is submitted twice in a row, the first
request resolves and the second is rejected, the component is in a reachable state that
shows both a success message and an error message. -/
theorem overlapping_submits_show_both_messages :
    run Sys.init overlappingSubmits
      = some
          { form :=
              { name := "", taskName := "", repoLink := "",
                taskUpdates := [{ text := "", link := some "" }],
                message := "Task submitted successfully! Task ID: T1",
                error := "Failed to submit task. duplicate task" },
            inflight := [] } ∧
    ¬ (∀ σ : Sys, Reachable σ → MessagesExclusive σ.form) := by
  have hrun : run Sys.init overlappingSubmits
      = some
          { form :=
              { name := "", taskName := "", repoLink := "",
                taskUpdates := [{ text := "", link := some "" }],
                message := "Task submitted successfully! Task ID: T1",
                error := "Failed to submit task. duplicate task" },
            inflight := [] } := by decide
  refine ⟨hrun, ?_⟩
  intro hall
  exact absurd (hall _ ⟨overlappingSubmits, hrun⟩) (by decide)

end TaskForm

namespace TaskForm

/-! ## A submission and what happens while it is awaited -/

theorem submitStart_of_valid (s : FormState) (h : FormValid s) :
    submitStart s
      = ({ s with message := "", error := "" },
         some { url := API_ENDPOINT, body := buildPayload s }) := by
  simp [submitStart, validationFails_of_valid s h]

theorem handleSubmitInterleaved_of_valid (σ σ2 : Sys) (during : List Event) (r : PostResult)
    (h : FormValid σ.form)
    (hmid : run { form := (submitStart σ.form).1, inflight := σ.inflight } during = some σ2) :
    handleSubmitInterleaved σ during r
      = some { form := submitResponse σ2.form r, inflight := σ2.inflight } := by
  rw [submitStart_of_valid σ.form h] at hmid
  simp only [handleSubmitInterleaved, submitStart_of_valid σ.form h]
  rw [hmid]

theorem handleSubmit_eq_interleaved (s : FormState) (net : PostRequest → PostResult)
    (h : FormValid s) :
    handleSubmitInterleaved { form := s, inflight := [] } []
        (net { url := API_ENDPOINT, body := buildPayload s })
      = some { form := (handleSubmit s net).1, inflight := [] } := by
  rw [handleSubmit_of_valid s net (validationFails_of_valid s h)]
  simp [handleSubmitInterleaved, submitStart_of_valid s h, run]

theorem step_edit_messages (σ σ1 : Sys) (ev : Event) (hev : ev.isEdit = true)
    (hstep : step σ ev = some σ1) :
    σ1.form.message = σ.form.message ∧ σ1.form.error = σ.form.error := by
  cases ev with
  | setName v => simp [step] at hstep; subst hstep; exact ⟨rfl, rfl⟩
  | setTaskName v => simp [step] at hstep; subst hstep; exact ⟨rfl, rfl⟩
  | setRepoLink v => simp [step] at hstep; subst hstep; exact ⟨rfl, rfl⟩
  | updateChange index field v =>
    simp only [step] at hstep
    split at hstep
    · cases hstep
      exact (applyUpdateChange_frame σ.form index field v).2
    · cases hstep
  | addUpdate => simp [step] at hstep; subst hstep; exact ⟨rfl, rfl⟩
  | removeUpdate index =>
    simp only [step] at hstep
    split at hstep
    · cases hstep
      exact ⟨rfl, rfl⟩
    · cases hstep
  | submit => simp [Event.isEdit] at hev
  | respond k r => simp [Event.isEdit] at hev

theorem run_edits_messages (evs : List Event) :
    ∀ σ σ1 : Sys, evs.all Event.isEdit = true → run σ evs = some σ1 →
      σ1.form.message = σ.form.message ∧ σ1.form.error = σ.form.error := by
  induction evs with
  | nil =>
    intro σ σ1 _ hrun
    simp [run] at hrun
    subst hrun
    exact ⟨rfl, rfl⟩
  | cons ev evs ih =>
    intro σ σ1 hall hrun
    simp only [List.all_cons, Bool.and_eq_true] at hall
    simp only [run] at hrun
    split at hrun
    · next σ2 hstep =>
      have h1 := step_edit_messages σ σ2 ev hall.1 hstep
      have h2 := ih σ2 σ1 hall.2 hrun
      exact ⟨h2.1.trans h1.1, h2.2.trans h1.2⟩
    · cases hrun

/-- C3, as the code has it: on a valid form, when the POST resolves with a response whose
`task_id` is the string `T`, then whatever the component handled during the wait,
`handleSubmit` ends with the success message `'Task submitted successfully! Task ID: ' + T`,
empty name, task name and repository link, and the single entry `{ text: '', link: '' }`;
the error message is left as it was when the response arrived, and that is the empty
string when only edits happened during the wait. -/
theorem handleSubmitInterleaved_success (σ : Sys) (during : List Event) (T : String)
    (σ2 : Sys) (h : FormValid σ.form)
    (hmid : run { form := (submitStart σ.form).1, inflight := σ.inflight } during = some σ2) :
    handleSubmitInterleaved σ during (PostResult.resolved (some T))
      = some
          { form :=
              { name := "", taskName := "", repoLink := "",
                taskUpdates := [{ text := "", link := some "" }],
                message := "Task submitted successfully! Task ID: " ++ T,
                error := σ2.form.error },
            inflight := σ2.inflight } ∧
    (during.all Event.isEdit = true → σ2.form.error = "") := by
  refine ⟨?_, ?_⟩
  · rw [handleSubmitInterleaved_of_valid σ σ2 during _ h hmid]
    rfl
  · intro hall
    rw [(run_edits_messages during _ σ2 hall hmid).2, submitStart_of_valid σ.form h]

/-- Witness for C3 as amended: the filled-in form is submitted, the name is retyped and an
entry added during the wait, and the response carries `task_id = "T123"`. -/
theorem handleSubmitInterleaved_success_witness :
    handleSubmitInterleaved { form := filledForm, inflight := [] } editsWhileWaiting
        (PostResult.resolved (some "T123"))
      = some
          { form :=
              { name := "", taskName := "", repoLink := "",
                taskUpdates := [{ text := "", link := some "" }],
                message := "Task submitted successfully! Task ID: " ++ "T123",
                error := afterEditsWhileWaiting.form.error },
            inflight := afterEditsWhileWaiting.inflight } ∧
    (editsWhileWaiting.all Event.isEdit = true → afterEditsWhileWaiting.form.error = "") :=
  handleSubmitInterleaved_success { form := filledForm, inflight := [] } editsWhileWaiting
    "T123" afterEditsWhileWaiting (by decide) (by decide)

/-- C3 as stated fails: the filled-in form is submitted, and during the wait it is
submitted again and that second request is rejected; when the first POST then resolves
with `task_id = "T1"`, the run of `handleSubmit` that started from a valid form and whose
POST succeeded ends with a non-empty error message.  The same state is reached in the
component from mount. -/
theorem handleSubmitInterleaved_success_error_shown :
    FormValid filledForm ∧
    handleSubmitInterleaved { form := filledForm, inflight := [] }
        [Event.submit, Event.respond 0 (PostResult.rejected none "Network Error")]
        (PostResult.resolved (some "T1"))
      = some
          { form :=
              { name := "", taskName := "", repoLink := "",
                taskUpdates := [{ text := "", link := some "" }],
                message := "Task submitted successfully! Task ID: T1",
                error := "Failed to submit task. Network Error" },
            inflight := [] } ∧
    run Sys.init
        [Event.setName "Ada", Event.setTaskName "parser",
         Event.setRepoLink "https://example.org/repo",
         Event.updateChange 0 Field.text "first draft",
         Event.submit, Event.submit,
         Event.respond 1 (PostResult.rejected none "Network Error"),
         Event.respond 0 (PostResult.resolved (some "T1"))]
      = some
          { form :=
              { name := "", taskName := "", repoLink := "",
                taskUpdates := [{ text := "", link := some "" }],
                message := "Task submitted successfully! Task ID: T1",
                error := "Failed to submit task. Network Error" },
            inflight := [] } ∧
    "Failed to submit task. Network Error" ≠ "" := by
  decide

/-- C4, as the code has it: on a valid form, when the POST is rejected, then whatever the
component handled during the wait, `handleSubmit` sets the error message to
`'Failed to submit task. '` followed by the error text of the response body when that
text is non-empty, and followed by `err.message` when the body carries no error text or
an empty one, and writes nothing else: success message, name, task name, repository link
and entry sequence are as they were when the failure arrived.  The success message is
empty when only edits happened during the wait, and the four inputs have their values
from the submission when nothing happened during the wait. -/
theorem handleSubmitInterleaved_failure (σ : Sys) (during : List Event)
    (responseError : Option String) (errMessage : String) (σ2 : Sys)
    (h : FormValid σ.form)
    (hmid : run { form := (submitStart σ.form).1, inflight := σ.inflight } during = some σ2) :
    ∃ shown : String,
      handleSubmitInterleaved σ during (PostResult.rejected responseError errMessage)
        = some
            { form :=
                { name := σ2.form.name, taskName := σ2.form.taskName,
                  repoLink := σ2.form.repoLink, taskUpdates := σ2.form.taskUpdates,
                  message := σ2.form.message,
                  error := "Failed to submit task. " ++ shown },
              inflight := σ2.inflight } ∧
      (∀ e : String, responseError = some e → e ≠ "" → shown = e) ∧
      (responseError = none ∨ responseError = some "" → shown = errMessage) ∧
      (during.all Event.isEdit = true → σ2.form.message = "") ∧
      (during = [] →
        σ2.form.message = "" ∧ σ2.form.name = σ.form.name ∧
        σ2.form.taskName = σ.form.taskName ∧ σ2.form.repoLink = σ.form.repoLink ∧
        σ2.form.taskUpdates = σ.form.taskUpdates) := by
  refine ⟨jsOr responseError errMessage, ?_, ?_, ?_, ?_, ?_⟩
  · rw [handleSubmitInterleaved_of_valid σ σ2 during _ h hmid]
    rfl
  · rintro e rfl he
    simp [jsOr, strFalsy, he]
  · rintro (rfl | rfl)
    · rfl
    · rfl
  · intro hall
    rw [(run_edits_messages during _ σ2 hall hmid).1, submitStart_of_valid σ.form h]
  · rintro rfl
    rw [submitStart_of_valid σ.form h] at hmid
    simp only [run, Option.some.injEq] at hmid
    subst hmid
    exact ⟨rfl, rfl, rfl, rfl, rfl⟩

/-- Witness for C4 as amended: the filled-in form is submitted, the name is retyped and an
entry added during the wait, and the POST is rejected with the body
`{ "error": "duplicate task" }`. -/
theorem handleSubmitInterleaved_failure_witness :
    ∃ shown : String,
      handleSubmitInterleaved { form := filledForm, inflight := [] } editsWhileWaiting
          (PostResult.rejected (some "duplicate task") "Request failed with status code 409")
        = some
            { form :=
                { name := afterEditsWhileWaiting.form.name,
                  taskName := afterEditsWhileWaiting.form.taskName,
                  repoLink := afterEditsWhileWaiting.form.repoLink,
                  taskUpdates := afterEditsWhileWaiting.form.taskUpdates,
                  message := afterEditsWhileWaiting.form.message,
                  error := "Failed to submit task. " ++ shown },
              inflight := afterEditsWhileWaiting.inflight } ∧
      (∀ e : String, some "duplicate task" = some e → e ≠ "" → shown = e) ∧
      ((some "duplicate task" : Option String) = none ∨ some "duplicate task" = some "" →
        shown = "Request failed with status code 409") ∧
      (editsWhileWaiting.all Event.isEdit = true → afterEditsWhileWaiting.form.message = "") ∧
      (editsWhileWaiting = [] →
        afterEditsWhileWaiting.form.message = "" ∧
        afterEditsWhileWaiting.form.name = filledForm.name ∧
        afterEditsWhileWaiting.form.taskName = filledForm.taskName ∧
        afterEditsWhileWaiting.form.repoLink = filledForm.repoLink ∧
        afterEditsWhileWaiting.form.taskUpdates = filledForm.taskUpdates) :=
  handleSubmitInterleaved_failure { form := filledForm, inflight := [] } editsWhileWaiting
    (some "duplicate task") "Request failed with status code 409" afterEditsWhileWaiting
    (by decide) (by decide)

/-- C4 as stated fails, in two ways.  With the failure body `{ "error": "" }` the body
carries an error text, the empty one, and the error message is not the prefix followed by
that text but the prefix followed by `err.message`.  And when the filled-in form is
submitted again during the wait and that second request resolves, the rejection of the
first POST arrives at a form that shows a success message and has been reset. -/
theorem handleSubmit_failure_not_as_stated :
    FormValid filledForm ∧
    (handleSubmit filledForm
      (fun _ => PostResult.rejected (some "") "Request failed with status code 400")).1.error
      = "Failed to submit task. Request failed with status code 400" ∧
    (handleSubmit filledForm
      (fun _ => PostResult.rejected (some "") "Request failed with status code 400")).1.error
      ≠ "Failed to submit task. " ++ "" ∧
    handleSubmitInterleaved { form := filledForm, inflight := [] }
        [Event.submit, Event.respond 0 (PostResult.resolved (some "T1"))]
        (PostResult.rejected (some "duplicate task") "Request failed with status code 409")
      = some
          { form :=
              { name := "", taskName := "", repoLink := "",
                taskUpdates := [{ text := "", link := some "" }],
                message := "Task submitted successfully! Task ID: T1",
                error := "Failed to submit task. duplicate task" },
            inflight := [] } := by
  decide

end TaskForm
